import Mathlib

/-!
Verification of the ND-gridded cubic smoothing spline engine (`csaps/_sspndg.py`).

The source file is embedded shallowly:

* numpy ND-arrays become `Tensor α`: a shape together with a flat data list laid
  out in Fortran (column-major) order, matching the pervasive `order='F'` in the
  source;
* fallible numpy operations (`reshape`) return `Option`; Python exceptions
  become `Except PyErr`;
* the single-axis solver `CubicSmoothingSpline` / `SplinePPForm` lives in
  `_sspumv.py`, which is not part of the sources under verification; it is
  modelled from the specification's contract (§4.4) as a `Solver1D` structure
  whose operation fields are abstract and whose property fields carry exactly
  the shape/identity facts the contract promises.  A concrete instance
  `defaultSolver` witnesses that the contract is satisfiable.

Entries of data vectors are polymorphic (`α`) where the source code never
inspects them (validation), rational (`ℚ`) in the numeric pipeline, and
`FloatVal` (a model of IEEE values that distinguishes finite values from
NaN/infinities) where finiteness questions arise.
-/

namespace Csaps

/-- A model of an IEEE double as far as the validation code can observe it:
either a finite real value (represented by a rational) or one of the
non-finite values NaN, +inf, -inf. -/
inductive FloatVal where
  | fin (q : ℚ)
  | nan
  | inf
  | neginf
  deriving DecidableEq, Repr

/-- Whether a `FloatVal` is finite (what `np.isfinite` would report). -/
def FloatVal.isFinite : FloatVal → Bool
  | .fin _ => true
  | _ => false

/-- Python exception kinds raised by the module: `TypeError` and `ValueError`
(with their message). -/
inductive PyErr where
  | typeError (msg : String)
  | valueError (msg : String)
  deriving DecidableEq, Repr

/-- A dense numpy ND-array: a shape and flat data in Fortran (column-major)
order, i.e. multi-index `(i0, i1, ...)` lives at flat position
`i0 + shape0 * (i1 + shape1 * (...))`. -/
structure Tensor (α : Type) where
  shape : List ℕ
  data : List α
  deriving DecidableEq, Repr

/-- Well-formedness of a tensor: the flat data has exactly as many entries as
the shape demands. (Every actual numpy array satisfies this.) -/
def Tensor.wf {α : Type} (t : Tensor α) : Prop :=
  t.data.length = t.shape.prod

instance {α : Type} (t : Tensor α) : Decidable t.wf := by
  unfold Tensor.wf; infer_instance

/-- Fortran-order linearization of a multi-index against a shape. -/
def fidx : List ℕ → List ℕ → ℕ
  | _, [] => 0
  | [], _ => 0
  | s :: ss, i :: is => i + s * fidx ss is

/-- Fortran-order delinearization of a flat index against a shape. -/
def funidx : List ℕ → ℕ → List ℕ
  | [], _ => []
  | s :: ss, n => n % s :: funidx ss (n / s)

/-- `ndarray.reshape(sh, order='F')`: succeeds (keeping the flat data intact)
iff the element count matches, as numpy raises otherwise. -/
def Tensor.reshapeF {α : Type} (t : Tensor α) (sh : List ℕ) : Option (Tensor α) :=
  if t.data.length = sh.prod then some ⟨sh, t.data⟩ else none

/-- `ndarray.transpose(perm)`: axis `j` of the result is axis `perm[j]` of the
input; the flat Fortran-order data is re-laid-out accordingly. -/
def Tensor.transposeF {α : Type} [Inhabited α] (t : Tensor α) (perm : List ℕ) : Tensor α :=
  let nsh := perm.map (fun j => t.shape.getD j 0)
  ⟨nsh,
    (List.range nsh.prod).map (fun n =>
      let mi := funidx nsh n
      let oldmi := (List.range t.shape.length).map (fun k => mi.getD (perm.indexOf k) 0)
      t.data.getD (fidx t.shape oldmi) default)⟩

/-- The axis permutation `(0, ndim, 1, ..., ndim-1)` built at `_sspndg.py`
lines 86 and 229: it moves the trailing dimension to position 1. -/
def rotAxes (ndim : ℕ) : List ℕ :=
  0 :: ndim :: (List.range (ndim - 1)).map (fun j => j + 1)

/-- A Python object as the element of an `xdata`/`weights`/`xi` sequence sees
it after `np.array(...)`: a scalar (0-D), a vector (1-D), or an array of
dimension at least 2 (represented by its rows). -/
inductive NdArrayLike (α : Type) where
  | atom (v : α)
  | vec (v : List α)
  | mat (m : List (List α))
  deriving DecidableEq, Repr

/-- A Python object passed where a sequence of vectors is expected: either not
a `collections.abc.Sequence` at all (with its truthiness, for the `not weights`
test), or a sequence of array-likes. -/
inductive PyObj (α : Type) where
  | nonSeq (truthy : Bool)
  | seq (elems : List (NdArrayLike α))
  deriving DecidableEq, Repr

/-- One step of the validation loop body of `ndgrid_prepare_data_sites`
(`_sspndg.py` lines 24-30): `np.array(di)` then the `ndim > 1` check then the
`size < 2` check. -/
def prepElem {α : Type} (name : String) : NdArrayLike α → Except PyErr (List α)
  | .atom _ => .error (.valueError (name ++ " must contain at least 2 data points."))
  | .vec v =>
      if v.length < 2 then
        .error (.valueError (name ++ " must contain at least 2 data points."))
      else
        .ok v
  | .mat _ => .error (.valueError ("All " ++ name ++ " elements must be a vector."))

/-- `ndgrid_prepare_data_sites` (`_sspndg.py` lines 18-32): `TypeError` unless
the input is a sequence; each element is coerced to an array and must be 1-D
with at least 2 entries, else `ValueError`; returns the tuple of vectors. -/
def ndgrid_prepare_data_sites {α : Type} (data : PyObj α) (name : String) :
    Except PyErr (List (List α)) :=
  match data with
  | .nonSeq _ => .error (.typeError (name ++ " must be a sequence of the vectors."))
  | .seq elems => elems.mapM (prepElem name)

/-- The `smooth` argument of the constructor: Python `None`, a scalar, or a
sequence of optional per-axis values. -/
inductive SmoothArg where
  | noneArg
  | scalar (v : ℚ)
  | sseq (l : List (Option ℚ))
  deriving DecidableEq, Repr

/-- Python truthiness test `not smooth` (`_sspndg.py` line 186): `None`, the
scalar `0`, and an empty sequence are falsy. -/
def SmoothArg.falsy : SmoothArg → Bool
  | .noneArg => true
  | .scalar v => v == 0
  | .sseq l => l.isEmpty

/-- Python truthiness test `not weights` (`_sspndg.py` line 173): `None`, a
falsy non-sequence, and an empty sequence are falsy. -/
def falsyWeights {α : Type} : Option (PyObj α) → Bool
  | none => true
  | some (.nonSeq t) => !t
  | some (.seq l) => l.isEmpty

/-- `_sspndg.py` lines 173-176: a falsy `weights` argument becomes one `None`
per axis, otherwise the sequence is validated like `xdata`. -/
def resolveWeights {α : Type} (data_ndim : ℕ) (weights : Option (PyObj α)) :
    Except PyErr (List (Option (List α))) :=
  if falsyWeights weights then .ok (List.replicate data_ndim none)
  else
    match weights with
    | none => .ok (List.replicate data_ndim none)
    | some w =>
        match ndgrid_prepare_data_sites w "weights" with
        | .error e => .error e
        | .ok wl => .ok (wl.map some)

/-- `_sspndg.py` lines 186-192: a falsy `smooth` becomes one `None` per axis;
a (non-sequence) scalar is broadcast to every axis; a sequence is kept. -/
def resolveSmoothArg (data_ndim : ℕ) (smooth : SmoothArg) : List (Option ℚ) :=
  let smooth1 := if smooth.falsy then SmoothArg.sseq (List.replicate data_ndim none) else smooth
  match smooth1 with
  | .sseq l => l
  | .scalar v => List.replicate data_ndim (some v)
  | .noneArg => []

/-- `NdGridCubicSmoothingSpline._prepare_data` (`_sspndg.py` lines 161-199):
validates `xdata`, the `ydata` dimension count and per-axis extents, the
`weights` count and per-axis sizes, and the `smooth` count. -/
def prepare_data (xdata : PyObj ℚ) (ydata : Tensor ℚ) (weights : Option (PyObj ℚ))
    (smooth : SmoothArg) :
    Except PyErr (List (List ℚ) × Tensor ℚ × List (Option (List ℚ)) × List (Option ℚ)) :=
  match ndgrid_prepare_data_sites xdata "xdata" with
  | .error e => .error e
  | .ok xs =>
      if ydata.shape.length ≠ xs.length then
        .error (.valueError "ydata must have dimension according to xdata")
      else if (ydata.shape.zip (xs.map List.length)).any (fun p => p.1 ≠ p.2) then
        .error (.valueError "ydata and xdata dimension size mismatch")
      else
        match resolveWeights xs.length weights with
        | .error e => .error e
        | .ok ws =>
            if ws.length ≠ xs.length then
              .error (.valueError "weights and xdata dimensions mismatch")
            else if (ws.zip xs).any
                (fun p => match p.1 with
                  | none => false
                  | some w => w.length ≠ p.2.length) then
              .error (.valueError "weights and xdata dimension size mismatch")
            else
              if (resolveSmoothArg xs.length smooth).length ≠ xs.length then
                .error
                  (.valueError
                    "Number of smoothing parameter values must be equal number of dimensions")
              else
                .ok (xs, ydata, ws, resolveSmoothArg xs.length smooth)

/-- Modelled from the spec: the result record of a 1-D smoothing-spline fit
(spec §4.4, implemented by `CubicSmoothingSpline` in `_sspumv.py`, which is not
among the sources): breakpoints are the sites themselves, a coefficient matrix
with one row per input row and `pieces * order` columns, the piece count, the
polynomial order, and the resolved smoothing parameter. -/
structure Fit1D where
  coeffs : Tensor ℚ
  pieces : ℕ
  order : ℕ
  smooth : ℚ

/-- Modelled from the spec: the external 1-D smoothing-spline collaborator
(spec §4.4; `CubicSmoothingSpline` and `SplinePPForm` of `_sspumv.py`, missing
from the sources).  The operation fields are abstract deterministic functions;
the property fields state exactly the contract the spec promises: `fit` on
sites `x` and a `rows × len(x)` value matrix yields `pieces = len(x) - 1`, a
well-formed `rows × (pieces * order)` coefficient matrix, and reports the
resolved smoothing parameter, which is the requested one whenever one is given;
`ppEval` (the `SplinePPForm(breaks, coeffs, ndim=rows, shape=(rows, len(q)))
.evaluate(q)` call) yields a well-formed `rows × len(q)` matrix. -/
structure Solver1D where
  fit : List ℚ → Tensor ℚ → Option (List ℚ) → Option ℚ → Fit1D
  resolveSmooth : List ℚ → Option (List ℚ) → Option ℚ → ℚ
  ppEval : List ℚ → Tensor ℚ → ℕ → List ℚ → Tensor ℚ
  fit_pieces : ∀ x v w s, (fit x v w s).pieces = x.length - 1
  fit_coeffs_shape : ∀ x v w s r, v.shape = [r, x.length] →
    (fit x v w s).coeffs.shape = [r, (fit x v w s).pieces * (fit x v w s).order]
  fit_coeffs_wf : ∀ x v w s, (fit x v w s).coeffs.wf
  fit_smooth : ∀ x v w s, (fit x v w s).smooth = resolveSmooth x w s
  resolve_given : ∀ x w s, resolveSmooth x w (some s) = s
  ppEval_shape : ∀ b c r q, (ppEval b c r q).shape = [r, q.length]
  ppEval_wf : ∀ b c r q, (ppEval b c r q).wf

/-- Modelled from the spec: a concrete inhabitant of the `Solver1D` contract,
with all-zero coefficients and evaluations (the numerical content of the 1-D
solver is outside the spec's scope) and order 4 (cubic). -/
def defaultSolver : Solver1D where
  fit x v _ s :=
    ⟨⟨[v.shape.headD 0, (x.length - 1) * 4],
        List.replicate (v.shape.headD 0 * ((x.length - 1) * 4)) 0⟩,
      x.length - 1, 4, s.getD (1 / 2)⟩
  resolveSmooth _ _ s := s.getD (1 / 2)
  ppEval _ _ r q := ⟨[r, q.length], List.replicate (r * q.length) 0⟩
  fit_pieces := by intro x v w s; rfl
  fit_coeffs_shape := by intro x v w s r h; simp [h]
  fit_coeffs_wf := by intro x v w s; simp [Tensor.wf]
  fit_smooth := by intro x v w s; rfl
  resolve_given := by intro x w s; rfl
  ppEval_shape := by intro b c r q; rfl
  ppEval_wf := by intro b c r q; simp [Tensor.wf]

/-- `NdGridSplinePPForm` (`_sspndg.py` lines 35-51): the grid piecewise
polynomial form holds the per-axis breakpoint vectors and the ND coefficient
tensor; `pieces`, `order` and `ndim` are derived exactly as `__init__` does. -/
structure NdGridSplinePPForm where
  breaks : List (List ℚ)
  coeffs : Tensor ℚ
  deriving DecidableEq, Repr

/-- `self._pieces = tuple(x.size - 1 for x in breaks)` (line 49). -/
def NdGridSplinePPForm.pieces (f : NdGridSplinePPForm) : List ℕ :=
  f.breaks.map (fun x => x.length - 1)

/-- `self._order = tuple(s // p for s, p in zip(coeffs.shape[1:], self._pieces))`
(line 50). -/
def NdGridSplinePPForm.order (f : NdGridSplinePPForm) : List ℕ :=
  List.zipWith (fun s p => s / p) (f.coeffs.shape.drop 1) f.pieces

/-- `self._ndim = len(breaks)` (line 51). -/
def NdGridSplinePPForm.ndim (f : NdGridSplinePPForm) : ℕ :=
  f.breaks.length

/-- The body of the loop of `NdGridSplinePPForm.evaluate` (`_sspndg.py` lines
78-88), iterating `i` from `ndim - 1` down to `0` (the fuel argument is `i + 1`):
reshape the current tensor to `(prod(sizey[:ndim]) * pieces[i], order[i])`,
evaluate the 1-D piecewise polynomial of axis `i` at the query vector, restore
the full shape with the trailing extent replaced by the query length, and
rotate the trailing dimension to position 1. -/
def evalLoop (S : Solver1D) (breaks : List (List ℚ)) (pieces order : List ℕ)
    (ndim : ℕ) (xi : List (List ℚ)) :
    ℕ → List ℕ → Tensor ℚ → Option (Tensor ℚ)
  | 0, _, yi => some yi
  | k + 1, sizey, yi =>
      let nd := (sizey.take ndim).prod
      match yi.reshapeF [nd * pieces.getD k 0, order.getD k 0] with
      | none => none
      | some coeffs =>
          let yi1 := S.ppEval (breaks.getD k []) coeffs nd (xi.getD k [])
          match yi1.reshapeF (sizey.take ndim ++ [(xi.getD k []).length]) with
          | none => none
          | some yi2 =>
              let yi3 := yi2.transposeF (rotAxes ndim)
              evalLoop S breaks pieces order ndim xi k yi3.shape yi3

/-- `NdGridSplinePPForm.evaluate` (`_sspndg.py` lines 73-90): run the reverse
axis traversal starting from a copy of the coefficient tensor, then reshape the
result to the query lengths. -/
def NdGridSplinePPForm.evaluate (S : Solver1D) (f : NdGridSplinePPForm)
    (xi : List (List ℚ)) : Option (Tensor ℚ) :=
  let yi := f.coeffs
  let nsize := xi.map List.length
  match evalLoop S f.breaks f.pieces f.order f.ndim xi f.ndim yi.shape yi with
  | none => none
  | some t => t.reshapeF nsize

/-- State-passing rendering of the `evaluate` method call: the method reads the
form's fields and assigns none of them, so the post-state is the receiver
unchanged. -/
def NdGridSplinePPForm.evaluateSt (S : Solver1D) (f : NdGridSplinePPForm)
    (xi : List (List ℚ)) : Option (Tensor ℚ) × NdGridSplinePPForm :=
  (f.evaluate S xi, f)

/-- The body of the loop of `NdGridCubicSmoothingSpline._make_spline`
(`_sspndg.py` lines 217-231), iterating `i` from `ndim - 1` down to `0` (the
fuel argument is `i + 1`): reshape to `(prod(sizey[:-1]), sizey[-1])`, fit a
1-D smoothing spline along the trailing dimension, record the resolved
smoothing parameter, replace the trailing extent by `pieces * order`, reshape
the coefficients back, and (when `ndim > 1`) rotate the trailing dimension to
position 1. -/
def makeSplineLoop (S : Solver1D) (xs : List (List ℚ)) (ws : List (Option (List ℚ)))
    (sm : List (Option ℚ)) (ndim : ℕ) :
    ℕ → List ℕ → Tensor ℚ → List ℚ → Option (Tensor ℚ × List ℚ)
  | 0, _, ydata, acc => some (ydata, acc)
  | k + 1, sizey, ydata, acc =>
      let rows := sizey.dropLast.prod
      match ydata.reshapeF [rows, sizey.getLastD 0] with
      | none => none
      | some ydata_i =>
          let F := S.fit (xs.getD k []) ydata_i (ws.getD k none) (sm.getD k none)
          let sizey1 := sizey.dropLast ++ [F.pieces * F.order]
          match F.coeffs.reshapeF sizey1 with
          | none => none
          | some yd1 =>
              if 1 < ndim then
                let yd2 := yd1.transposeF (rotAxes ndim)
                makeSplineLoop S xs ws sm ndim k yd2.shape yd2 (acc ++ [F.smooth])
              else
                makeSplineLoop S xs ws sm ndim k sizey1 yd1 (acc ++ [F.smooth])

/-- `NdGridCubicSmoothingSpline._make_spline` (`_sspndg.py` lines 211-233):
prepend a synthetic leading dimension of size 1 to `ydata`, run the reverse
axis traversal, and package the result with the `xdata` breakpoints, together
with the accumulated list of resolved smoothing parameters. -/
def makeSpline (S : Solver1D) (xs : List (List ℚ)) (ydata : Tensor ℚ)
    (ws : List (Option (List ℚ))) (sm : List (Option ℚ)) :
    Option (NdGridSplinePPForm × List ℚ) :=
  let ndim := xs.length
  let sizey := 1 :: ydata.shape
  match ydata.reshapeF sizey with
  | none => none
  | some y0 =>
      match makeSplineLoop S xs ws sm ndim ndim sizey y0 [] with
      | none => none
      | some (yfin, acc) => some (⟨xs, yfin⟩, acc)

/-- The state of a constructed `NdGridCubicSmoothingSpline` object
(`_sspndg.py` lines 125-137): the validated inputs, `ndim`, the fitted form
and the resolved smoothing parameters. -/
structure NdGridCubicSmoothingSpline where
  xdata : List (List ℚ)
  ydata : Tensor ℚ
  weights : List (Option (List ℚ))
  ndim : ℕ
  spline : NdGridSplinePPForm
  smooth : List ℚ
  deriving Repr

/-- `NdGridCubicSmoothingSpline.__init__` (`_sspndg.py` lines 125-137):
validate via `_prepare_data`, then fit via `_make_spline`.  A reshape failure
inside the numeric pipeline surfaces as numpy's `ValueError`. -/
def ndFit (S : Solver1D) (xdata : PyObj ℚ) (ydata : Tensor ℚ)
    (weights : Option (PyObj ℚ)) (smooth : SmoothArg) :
    Except PyErr NdGridCubicSmoothingSpline :=
  match prepare_data xdata ydata weights smooth with
  | .error e => .error e
  | .ok (xs, yd, ws, sm) =>
      match makeSpline S xs yd ws sm with
      | none => .error (.valueError "cannot reshape array")
      | some (spl, smv) => .ok ⟨xs, yd, ws, xs.length, spl, smv⟩

/-- `NdGridCubicSmoothingSpline.__call__` (`_sspndg.py` lines 201-209):
validate the query grid, check its axis count, and evaluate the stored form. -/
def ndCall (S : Solver1D) (o : NdGridCubicSmoothingSpline) (xi : PyObj ℚ) :
    Except PyErr (Tensor ℚ) :=
  match ndgrid_prepare_data_sites xi "xi" with
  | .error e => .error e
  | .ok xiv =>
      if xiv.length ≠ o.ndim then
        .error (.valueError "xi and xdata dimensions mismatch")
      else
        match o.spline.evaluate S xiv with
        | none => .error (.valueError "cannot reshape array")
        | some t => .ok t

/-- The list of resolved smoothing parameters accumulated by the
`_make_spline` loop over the first `k` axes: the loop visits axes in reverse
order, so the parameter resolved for axis `k - 1` comes first. -/
def smoothRevList (S : Solver1D) (xs : List (List ℚ)) (ws : List (Option (List ℚ)))
    (sm : List (Option ℚ)) (k : ℕ) : List ℚ :=
  ((List.range k).map
    (fun j => S.resolveSmooth (xs.getD j []) (ws.getD j none) (sm.getD j none))).reverse

/-- Modelled from the spec: standalone use of the external 1-D solver (spec
§4.4, the `CubicSmoothingSpline` of `_sspumv.py`, missing from the sources):
fit one smoothing spline (a single row) on the given sites, values, weights
and smoothing parameter, then evaluate the fitted piecewise polynomial at the
query vector for that row. -/
def standalone1d (S : Solver1D) (x y : List ℚ) (w : Option (List ℚ)) (s : Option ℚ)
    (q : List ℚ) : Tensor ℚ :=
  let f := S.fit x ⟨[1, x.length], y⟩ w s
  S.ppEval x ⟨[f.pieces, f.order], f.coeffs.data⟩ 1 q

/-! ## General lemmas about the tensor model -/

theorem range_map_getD {α : Type} (l : List α) (d : α) :
    (List.range l.length).map (fun n => l.getD n d) = l := by
  apply List.ext_getElem (by simp)
  intro i h1 h2
  simp [List.getD_eq_getElem _ _ h2, List.getElem?_eq_getElem h2]

theorem fidx_funidx : ∀ (sh : List ℕ) (n : ℕ), n < sh.prod → fidx sh (funidx sh n) = n
  | [], n, h => by
      simp only [List.prod_nil, Nat.lt_one_iff] at h
      simp [funidx, fidx, h]
  | s :: ss, n, h => by
      have hs : 0 < s := by
        rcases Nat.eq_zero_or_pos s with h0 | h0
        · subst h0; simp at h
        · exact h0
      have hdiv : n / s < ss.prod := by
        rw [Nat.div_lt_iff_lt_mul hs]
        simpa [List.prod_cons, Nat.mul_comm] using h
      simp only [funidx, fidx]
      rw [fidx_funidx ss (n / s) hdiv]
      exact Nat.mod_add_div n s

theorem transposeF_shape {α : Type} [Inhabited α] (t : Tensor α) (p : List ℕ) :
    (t.transposeF p).shape = p.map (fun j => t.shape.getD j 0) := rfl

theorem transposeF_wf {α : Type} [Inhabited α] (t : Tensor α) (p : List ℕ) :
    (t.transposeF p).wf := by
  simp [Tensor.transposeF, Tensor.wf]

theorem rotAxes_one : rotAxes 1 = [0, 1] := rfl

theorem transposeF_two {α : Type} [Inhabited α] (a b : ℕ) (d : List α)
    (hlen : d.length = a * b) :
    (Tensor.mk [a, b] d).transposeF [0, 1] = ⟨[a, b], d⟩ := by
  unfold Tensor.transposeF
  simp only [Tensor.mk.injEq]
  refine ⟨rfl, ?_⟩
  have hsh : ([0, 1].map (fun j => ([a, b] : List ℕ).getD j 0)) = [a, b] := rfl
  rw [hsh]
  have hprod : ([a, b] : List ℕ).prod = a * b := by simp
  rw [hprod]
  have hmap : ∀ n ∈ List.range (a * b),
      d.getD
        (fidx [a, b]
          ((List.range ([a, b] : List ℕ).length).map
            (fun k => (funidx [a, b] n).getD (([0, 1] : List ℕ).indexOf k) 0)))
        default = d.getD n default := by
    intro n hn
    have hn' : n < a * b := List.mem_range.mp hn
    have h1 : ((List.range ([a, b] : List ℕ).length).map
        (fun k => (funidx [a, b] n).getD (([0, 1] : List ℕ).indexOf k) 0)) =
        funidx [a, b] n := by
      simp [funidx, List.range_succ]
    rw [h1, fidx_funidx [a, b] n (by simpa using hn')]
  rw [List.map_congr_left hmap]
  have := range_map_getD d (default : α)
  rw [hlen] at this
  exact this

theorem transposeF_rot_shape {α : Type} [Inhabited α] (t : Tensor α) (a b : ℕ)
    (M : List ℕ) (hsh : t.shape = a :: (M ++ [b])) :
    (t.transposeF (rotAxes (M.length + 1))).shape = a :: b :: M := by
  rw [transposeF_shape, rotAxes]
  have hd : M.length + 1 - 1 = M.length := by omega
  rw [hd, List.map_cons, List.map_cons, List.map_map]
  have h0 : t.shape.getD 0 0 = a := by rw [hsh]; rfl
  have hb : t.shape.getD (M.length + 1) 0 = b := by
    rw [hsh, List.getD_cons_succ, List.getD_append_right _ _ _ _ (Nat.le_refl _)]
    simp
  have htail : (List.range M.length).map ((fun j => t.shape.getD j 0) ∘ (fun j => j + 1)) = M := by
    have hmap : ∀ j ∈ List.range M.length,
        ((fun j => t.shape.getD j 0) ∘ (fun j => j + 1)) j = M.getD j 0 := by
      intro j hj
      have hj' : j < M.length := List.mem_range.mp hj
      simp only [Function.comp]
      rw [hsh, List.getD_cons_succ, List.getD_append _ _ _ _ hj']
    rw [List.map_congr_left hmap]
    exact range_map_getD M 0
  rw [h0, hb, htail]

/-! ## Lemmas about the axis validator -/

theorem prepElem_vec_ok {α : Type} (name : String) (v : List α) (h2 : 2 ≤ v.length) :
    prepElem name (.vec v) = .ok v := by
  simp [prepElem, Nat.not_lt.mpr h2]

theorem mapM_prepElem_ok {α : Type} (name : String) (vs : List (List α))
    (h2 : ∀ v ∈ vs, 2 ≤ v.length) :
    (vs.map NdArrayLike.vec).mapM (prepElem name) = .ok vs := by
  induction vs with
  | nil => rfl
  | cons v vs ih =>
      rw [List.map_cons, List.mapM_cons, prepElem_vec_ok name v (h2 v (by simp)),
        ih (fun w hw => h2 w (List.mem_cons_of_mem _ hw))]
      rfl

theorem prep_ok_of_vecs {α : Type} (name : String) (vs : List (List α))
    (h2 : ∀ v ∈ vs, 2 ≤ v.length) :
    ndgrid_prepare_data_sites (.seq (vs.map .vec)) name = .ok vs := by
  unfold ndgrid_prepare_data_sites
  exact mapM_prepElem_ok name vs h2

theorem mapM_prepElem_inv {α : Type} (name : String) :
    ∀ (l : List (NdArrayLike α)) (vs : List (List α)),
      l.mapM (prepElem name) = .ok vs →
      l = vs.map .vec ∧ ∀ v ∈ vs, 2 ≤ v.length
  | [], vs, h => by
      rw [List.mapM_nil] at h
      simp only [pure, Except.pure, Except.ok.injEq] at h
      subst h
      simp
  | e :: l, vs, h => by
      rw [List.mapM_cons] at h
      match e with
      | .atom v => simp [prepElem, Bind.bind, Except.bind] at h
      | .mat m => simp [prepElem, Bind.bind, Except.bind] at h
      | .vec v =>
          by_cases hv : v.length < 2
          · simp [prepElem, hv, Bind.bind, Except.bind] at h
          · rw [prepElem_vec_ok name v (Nat.not_lt.mp hv)] at h
            match hrest : (l.mapM (prepElem (α := α) name)) with
            | .error e' =>
                rw [hrest] at h
                simp [Bind.bind, Except.bind] at h
            | .ok vs' =>
                rw [hrest] at h
                simp only [Bind.bind, Except.bind, pure, Except.pure, Except.ok.injEq] at h
                subst h
                obtain ⟨hl, hlen⟩ := mapM_prepElem_inv name l vs' hrest
                subst hl
                refine ⟨by simp, ?_⟩
                intro w hw
                rcases List.mem_cons.mp hw with rfl | hw'
                · exact Nat.not_lt.mp hv
                · exact hlen w hw'

theorem prep_ok_inv {α : Type} (name : String) (l : List (NdArrayLike α))
    (vs : List (List α)) (h : ndgrid_prepare_data_sites (.seq l) name = .ok vs) :
    l = vs.map .vec ∧ ∀ v ∈ vs, 2 ≤ v.length := by
  unfold ndgrid_prepare_data_sites at h
  exact mapM_prepElem_inv name l vs h

/-! ## Lemmas about `_prepare_data` -/

theorem mem_zip_self {α : Type} :
    ∀ {l : List α} {p : α × α}, p ∈ l.zip l → p.1 = p.2
  | [], p, hp => by simp at hp
  | a :: l, p, hp => by
      rcases List.mem_cons.mp hp with rfl | hp'
      · rfl
      · exact mem_zip_self hp'

theorem zip_self_any_ne (l : List ℕ) :
    ((l.zip l).any fun p => p.1 ≠ p.2) = false := by
  rw [List.any_eq_false]
  intro p hp
  simp [mem_zip_self hp]

theorem eq_of_zip_any_ne_false :
    ∀ {l1 l2 : List ℕ}, l1.length = l2.length →
      ((l1.zip l2).any fun p => p.1 ≠ p.2) = false → l1 = l2
  | [], [], _, _ => rfl
  | [], _ :: _, h, _ => by simp at h
  | _ :: _, [], h, _ => by simp at h
  | a :: l1, b :: l2, h, hz => by
      simp only [List.zip_cons_cons, List.any_cons, Bool.or_eq_false_iff,
        decide_eq_false_iff_not, ne_eq, not_not] at hz
      obtain ⟨rfl, hz⟩ := hz
      have := eq_of_zip_any_ne_false (by simpa using h) hz
      rw [this]

theorem prepare_data_ok (xdata : PyObj ℚ) (ydata : Tensor ℚ)
    (weights : Option (PyObj ℚ)) (smooth : SmoothArg) (xs : List (List ℚ))
    (ws : List (Option (List ℚ)))
    (hx : ndgrid_prepare_data_sites xdata "xdata" = .ok xs)
    (hsh : ydata.shape = xs.map List.length)
    (hw : resolveWeights xs.length weights = .ok ws)
    (hwlen : ws.length = xs.length)
    (hwsz : ((ws.zip xs).any fun p =>
        match p.1 with
        | none => false
        | some w => w.length ≠ p.2.length) = false)
    (hsm : (resolveSmoothArg xs.length smooth).length = xs.length) :
    prepare_data xdata ydata weights smooth =
      .ok (xs, ydata, ws, resolveSmoothArg xs.length smooth) := by
  unfold prepare_data
  rw [hx]
  dsimp only
  rw [if_neg (by simp [hsh])]
  rw [if_neg (by rw [hsh, zip_self_any_ne (xs.map List.length)]; simp)]
  rw [hw]
  dsimp only
  rw [if_neg (by simp [hwlen])]
  rw [if_neg (by rw [hwsz]; simp)]
  rw [if_neg (by simp [hsm])]

theorem prepare_data_inv (xdata : PyObj ℚ) (ydata : Tensor ℚ)
    (weights : Option (PyObj ℚ)) (smooth : SmoothArg) (xs : List (List ℚ))
    (yd : Tensor ℚ) (ws : List (Option (List ℚ))) (sm : List (Option ℚ))
    (h : prepare_data xdata ydata weights smooth = .ok (xs, yd, ws, sm)) :
    ndgrid_prepare_data_sites xdata "xdata" = .ok xs ∧
      yd = ydata ∧ ydata.shape = xs.map List.length ∧
      ws.length = xs.length ∧
      sm = resolveSmoothArg xs.length smooth ∧ sm.length = xs.length := by
  unfold prepare_data at h
  match hx : ndgrid_prepare_data_sites xdata "xdata" with
  | .error e => rw [hx] at h; cases h
  | .ok xs' =>
      rw [hx] at h
      dsimp only at h
      by_cases h1 : ydata.shape.length ≠ xs'.length
      · rw [if_pos h1] at h; cases h
      · rw [if_neg h1] at h
        match h2 : ((ydata.shape.zip (xs'.map List.length)).any fun p => p.1 ≠ p.2) with
        | true => rw [h2] at h; simp at h
        | false =>
            rw [h2] at h
            simp only [Bool.false_eq_true, if_false] at h
            match hw : resolveWeights xs'.length weights with
            | .error e => rw [hw] at h; cases h
            | .ok ws' =>
                rw [hw] at h
                dsimp only at h
                by_cases h3 : ws'.length ≠ xs'.length
                · rw [if_pos h3] at h; cases h
                · rw [if_neg h3] at h
                  match h4 : ((ws'.zip xs').any fun p =>
                      match p.1 with
                      | none => false
                      | some w => w.length ≠ p.2.length) with
                  | true => rw [h4] at h; simp at h
                  | false =>
                      rw [h4] at h
                      simp only [Bool.false_eq_true, if_false] at h
                      by_cases h5 : (resolveSmoothArg xs'.length smooth).length ≠ xs'.length
                      · rw [if_pos h5] at h; cases h
                      · rw [if_neg h5] at h
                        injection h with h'
                        simp only [Prod.mk.injEq] at h'
                        obtain ⟨rfl, rfl, rfl, rfl⟩ := h'
                        refine ⟨rfl, rfl, ?_, not_ne_iff.mp h3, rfl,
                          not_ne_iff.mp h5⟩
                        exact eq_of_zip_any_ne_false
                          (by simpa using not_ne_iff.mp h1) h2

/-! ## The fitting loop invariant -/

theorem reshapeF_some {α : Type} (t : Tensor α) (sh : List ℕ)
    (h : t.data.length = sh.prod) : t.reshapeF sh = some ⟨sh, t.data⟩ := by
  simp [Tensor.reshapeF, h]

theorem smoothRevList_succ (S : Solver1D) (xs : List (List ℚ))
    (ws : List (Option (List ℚ))) (sm : List (Option ℚ)) (k : ℕ) :
    smoothRevList S xs ws sm (k + 1) =
      S.resolveSmooth (xs.getD k []) (ws.getD k none) (sm.getD k none) ::
        smoothRevList S xs ws sm k := by
  simp [smoothRevList, List.range_succ]

theorem getLastD_app {α : Type} (l : List α) (b d : α) : (l ++ [b]).getLastD d = b := by
  simp

theorem take_map_length_succ (xs : List (List ℚ)) (k : ℕ) (hk : k < xs.length) :
    (xs.take (k + 1)).map List.length =
      (xs.take k).map List.length ++ [(xs.getD k []).length] := by
  rw [List.take_succ, List.getElem?_eq_getElem hk, List.map_append,
    List.getD_eq_getElem _ _ hk]
  rfl

theorem makeSplineLoop_ok (S : Solver1D) (xs : List (List ℚ))
    (ws : List (Option (List ℚ))) (sm : List (Option ℚ)) :
    ∀ (k : ℕ), k ≤ xs.length →
    ∀ (W : List ℕ) (t : Tensor ℚ) (acc : List ℚ),
      t.wf →
      t.shape = 1 :: (W ++ (xs.take k).map List.length) →
      W.length = xs.length - k →
      (∀ j, j < W.length → ∃ o, W.getD j 0 = ((xs.getD (k + j) []).length - 1) * o) →
      ∃ (t' : Tensor ℚ) (V : List ℕ),
        makeSplineLoop S xs ws sm xs.length k t.shape t acc =
          some (t', acc ++ smoothRevList S xs ws sm k) ∧
        t'.wf ∧ t'.shape = 1 :: (V ++ W) ∧ V.length = k ∧
        (∀ j, j < k → ∃ o, V.getD j 0 = ((xs.getD j []).length - 1) * o) := by
  intro k
  induction k with
  | zero =>
      intro hk W t acc hwf hsh hW hdiv
      refine ⟨t, [], ?_, hwf, by simpa using hsh, rfl, by intro j hj; omega⟩
      simp [makeSplineLoop, smoothRevList]
  | succ k ih =>
      intro hk W t acc hwf hsh hW hdiv
      have hklt : k < xs.length := hk
      have htake := take_map_length_succ xs k hklt
      have hshape' : t.shape =
          (1 :: (W ++ (xs.take k).map List.length)) ++ [(xs.getD k []).length] := by
        rw [hsh, htake]
        simp
      have hlenA : (1 :: (W ++ (xs.take k).map List.length)).length = xs.length := by
        have : (xs.take k).length = k := by
          rw [List.length_take]
          omega
        simp only [List.length_cons, List.length_append, List.length_map, this, hW]
        omega
      simp only [makeSplineLoop]
      rw [hshape', List.dropLast_concat]
      rw [getLastD_app (1 :: (W ++ (xs.take k).map List.length)) (xs.getD k []).length 0]
      have hres1 : t.data.length =
          ([(1 :: (W ++ (xs.take k).map List.length)).prod, (xs.getD k []).length]).prod := by
        rw [hwf, hshape', List.prod_append]
        simp
      rw [reshapeF_some t _ hres1]
      dsimp only
      have hfitsh : (Tensor.mk [(1 :: (W ++ (xs.take k).map List.length)).prod,
          (xs.getD k []).length] t.data).shape =
          [(1 :: (W ++ (xs.take k).map List.length)).prod, (xs.getD k []).length] := rfl
      have hFc := S.fit_coeffs_shape (xs.getD k [])
        (Tensor.mk [(1 :: (W ++ (xs.take k).map List.length)).prod,
          (xs.getD k []).length] t.data)
        (ws.getD k none) (sm.getD k none)
        (1 :: (W ++ (xs.take k).map List.length)).prod hfitsh
      have hFwf := S.fit_coeffs_wf (xs.getD k [])
        (Tensor.mk [(1 :: (W ++ (xs.take k).map List.length)).prod,
          (xs.getD k []).length] t.data)
        (ws.getD k none) (sm.getD k none)
      have hFp := S.fit_pieces (xs.getD k [])
        (Tensor.mk [(1 :: (W ++ (xs.take k).map List.length)).prod,
          (xs.getD k []).length] t.data)
        (ws.getD k none) (sm.getD k none)
      have hFs := S.fit_smooth (xs.getD k [])
        (Tensor.mk [(1 :: (W ++ (xs.take k).map List.length)).prod,
          (xs.getD k []).length] t.data)
        (ws.getD k none) (sm.getD k none)
      set F := S.fit (xs.getD k [])
        (Tensor.mk [(1 :: (W ++ (xs.take k).map List.length)).prod,
          (xs.getD k []).length] t.data)
        (ws.getD k none) (sm.getD k none) with hFdef
      have hres2 : F.coeffs.data.length =
          ((1 :: (W ++ (xs.take k).map List.length)) ++ [F.pieces * F.order]).prod := by
        have : F.coeffs.data.length = F.coeffs.shape.prod := hFwf
        rw [this, hFc]
        simp [List.prod_append, Nat.mul_assoc]
      rw [reshapeF_some F.coeffs _ hres2]
      dsimp only
      by_cases hnd : 1 < xs.length
      · rw [if_pos hnd]
        have hM1 : (W ++ (xs.take k).map List.length).length + 1 = xs.length := by
          simpa using hlenA
        have hsh2 : ((Tensor.mk ((1 :: (W ++ (xs.take k).map List.length)) ++
              [F.pieces * F.order]) F.coeffs.data).transposeF (rotAxes xs.length)).shape =
            1 :: (F.pieces * F.order) :: (W ++ (xs.take k).map List.length) := by
          rw [← hM1]
          exact transposeF_rot_shape _ 1 (F.pieces * F.order) _ rfl
        have hwf2 := transposeF_wf (Tensor.mk ((1 :: (W ++ (xs.take k).map List.length)) ++
          [F.pieces * F.order]) F.coeffs.data) (rotAxes xs.length)
        have hdiv2 : ∀ j, j < ((F.pieces * F.order) :: W).length →
            ∃ o, ((F.pieces * F.order) :: W).getD j 0 =
              ((xs.getD (k + j) []).length - 1) * o := by
          intro j hj
          match j with
          | 0 =>
              refine ⟨F.order, ?_⟩
              rw [List.getD_cons_zero, hFp, Nat.add_zero]
          | j' + 1 =>
              rw [List.getD_cons_succ]
              have hj' : j' < W.length := by simpa using hj
              obtain ⟨o, ho⟩ := hdiv j' hj'
              refine ⟨o, ?_⟩
              have : k + (j' + 1) = k + 1 + j' := by omega
              rw [this, ho]
        obtain ⟨t', V, heq, hwf', hsh', hVlen, hVdiv⟩ :=
          ih (Nat.le_of_succ_le hk) ((F.pieces * F.order) :: W)
            ((Tensor.mk ((1 :: (W ++ (xs.take k).map List.length)) ++
              [F.pieces * F.order]) F.coeffs.data).transposeF (rotAxes xs.length))
            (acc ++ [F.smooth]) hwf2 (by rw [hsh2]; rfl)
            (by simp only [List.length_cons, hW]; omega) hdiv2
        refine ⟨t', V ++ [F.pieces * F.order], ?_, hwf', ?_, ?_, ?_⟩
        · rw [heq, smoothRevList_succ, hFs]
          simp
        · rw [hsh']
          simp
        · simp [hVlen]
        · intro j hj
          by_cases hjk : j < k
          · rw [List.getD_append _ _ _ _ (by omega : j < V.length)]
            exact hVdiv j hjk
          · have hjeq : j = k := by omega
            subst hjeq
            rw [List.getD_append_right _ _ _ _ (by omega : V.length ≤ j)]
            have : j - V.length = 0 := by omega
            rw [this, List.getD_cons_zero, hFp]
            exact ⟨F.order, rfl⟩
      · rw [if_neg hnd]
        have hxlen : xs.length = 1 := by omega
        have hk0 : k = 0 := by omega
        subst hk0
        have hW0 : W = [] := List.length_eq_zero.mp (by omega)
        subst hW0
        have hwf1 : (Tensor.mk ((1 :: (([] : List ℕ) ++ (xs.take 0).map List.length)) ++
            [F.pieces * F.order]) F.coeffs.data).wf := hres2
        obtain ⟨t', V, heq, hwf', hsh', hVlen, hVdiv⟩ :=
          ih (by omega) [F.pieces * F.order]
            (Tensor.mk ((1 :: (([] : List ℕ) ++ (xs.take 0).map List.length)) ++
              [F.pieces * F.order]) F.coeffs.data)
            (acc ++ [F.smooth]) hwf1 (by simp)
            (by simp [hxlen])
            (by
              intro j hj
              have hj0 : j = 0 := by simpa using hj
              subst hj0
              refine ⟨F.order, ?_⟩
              rw [List.getD_cons_zero, hFp])
        have hsheq : (Tensor.mk ((1 :: (([] : List ℕ) ++ (xs.take 0).map List.length)) ++
            [F.pieces * F.order]) F.coeffs.data).shape =
            (1 :: (([] : List ℕ) ++ (xs.take 0).map List.length)) ++
              [F.pieces * F.order] := rfl
        rw [hsheq] at heq
        have hV0 : V = [] := List.length_eq_zero.mp hVlen
        subst hV0
        refine ⟨t', [F.pieces * F.order], ?_, hwf', ?_, rfl, ?_⟩
        · rw [heq, smoothRevList_succ, hFs]
          simp
        · rw [hsh']
          simp
        · intro j hj
          have hj0 : j = 0 := by omega
          subst hj0
          refine ⟨F.order, ?_⟩
          rw [List.getD_cons_zero, hFp]

theorem makeSpline_ok (S : Solver1D) (xs : List (List ℚ)) (ydata : Tensor ℚ)
    (ws : List (Option (List ℚ))) (sm : List (Option ℚ))
    (hwf : ydata.wf) (hsh : ydata.shape = xs.map List.length) :
    ∃ (t' : Tensor ℚ) (V : List ℕ),
      makeSpline S xs ydata ws sm =
        some (⟨xs, t'⟩, smoothRevList S xs ws sm xs.length) ∧
      t'.wf ∧ t'.shape = 1 :: V ∧ V.length = xs.length ∧
      (∀ j, j < xs.length → ∃ o, V.getD j 0 = ((xs.getD j []).length - 1) * o) := by
  simp only [makeSpline]
  rw [reshapeF_some ydata (1 :: ydata.shape) (by simpa [Tensor.wf] using hwf)]
  dsimp only
  obtain ⟨t', V, heq, hwf', hsh', hVlen, hVdiv⟩ :=
    makeSplineLoop_ok S xs ws sm xs.length (Nat.le_refl _) []
      (Tensor.mk (1 :: ydata.shape) ydata.data) []
      (by simpa [Tensor.wf] using hwf)
      (by simp [hsh])
      (by simp)
      (by intro j hj; simp at hj)
  have hsheq : (Tensor.mk (1 :: ydata.shape) ydata.data).shape = 1 :: ydata.shape := rfl
  rw [hsheq] at heq
  rw [heq]
  refine ⟨t', V, by simp, hwf', by simpa using hsh', hVlen, hVdiv⟩

/-! ## The evaluation loop invariant -/

theorem evalLoop_ok (S : Solver1D) (breaks : List (List ℚ)) (pieces order : List ℕ)
    (xi : List (List ℚ)) (ndim : ℕ) (hxilen : xi.length = ndim) :
    ∀ (k : ℕ), k ≤ ndim →
    ∀ (t : Tensor ℚ),
      t.wf →
      t.shape = 1 :: ((xi.drop k).map List.length ++
        (List.range k).map (fun j => pieces.getD j 0 * order.getD j 0)) →
      ∃ t', evalLoop S breaks pieces order ndim xi k t.shape t = some t' ∧
        t'.wf ∧ t'.shape = 1 :: (xi.map List.length) := by
  intro k
  induction k with
  | zero =>
      intro hk t hwf hsh
      refine ⟨t, ?_, hwf, by simpa using hsh⟩
      simp [evalLoop]
  | succ k ih =>
      intro hk t hwf hsh
      have hklt : k < ndim := hk
      have hkxi : k < xi.length := by omega
      have hrange : (List.range (k + 1)).map
          (fun j => pieces.getD j 0 * order.getD j 0) =
          (List.range k).map (fun j => pieces.getD j 0 * order.getD j 0) ++
            [pieces.getD k 0 * order.getD k 0] := by
        rw [List.range_succ, List.map_append]
        rfl
      have hshape' : t.shape =
          (1 :: ((xi.drop (k + 1)).map List.length ++
            (List.range k).map (fun j => pieces.getD j 0 * order.getD j 0))) ++
          [pieces.getD k 0 * order.getD k 0] := by
        rw [hsh, hrange]
        simp
      have hlenA : (1 :: ((xi.drop (k + 1)).map List.length ++
          (List.range k).map (fun j => pieces.getD j 0 * order.getD j 0))).length = ndim := by
        simp only [List.length_cons, List.length_append, List.length_map,
          List.length_drop, List.length_range, hxilen]
        omega
      have htakeA : ((1 :: ((xi.drop (k + 1)).map List.length ++
          (List.range k).map (fun j => pieces.getD j 0 * order.getD j 0))) ++
          [pieces.getD k 0 * order.getD k 0]).take ndim =
          1 :: ((xi.drop (k + 1)).map List.length ++
            (List.range k).map (fun j => pieces.getD j 0 * order.getD j 0)) := by
        rw [← hlenA]
        exact List.take_left _ _
      simp only [evalLoop]
      rw [hshape', htakeA]
      have hres1 : t.data.length =
          ([(1 :: ((xi.drop (k + 1)).map List.length ++
              (List.range k).map (fun j => pieces.getD j 0 * order.getD j 0))).prod *
            pieces.getD k 0, order.getD k 0]).prod := by
        rw [hwf, hshape', List.prod_append]
        simp [Nat.mul_assoc]
      rw [reshapeF_some t _ hres1]
      dsimp only
      have hEsh := S.ppEval_shape (breaks.getD k [])
        (Tensor.mk [(1 :: ((xi.drop (k + 1)).map List.length ++
            (List.range k).map (fun j => pieces.getD j 0 * order.getD j 0))).prod *
          pieces.getD k 0, order.getD k 0] t.data)
        (1 :: ((xi.drop (k + 1)).map List.length ++
          (List.range k).map (fun j => pieces.getD j 0 * order.getD j 0))).prod
        (xi.getD k [])
      have hEwf := S.ppEval_wf (breaks.getD k [])
        (Tensor.mk [(1 :: ((xi.drop (k + 1)).map List.length ++
            (List.range k).map (fun j => pieces.getD j 0 * order.getD j 0))).prod *
          pieces.getD k 0, order.getD k 0] t.data)
        (1 :: ((xi.drop (k + 1)).map List.length ++
          (List.range k).map (fun j => pieces.getD j 0 * order.getD j 0))).prod
        (xi.getD k [])
      have hres2 : (S.ppEval (breaks.getD k [])
          (Tensor.mk [(1 :: ((xi.drop (k + 1)).map List.length ++
              (List.range k).map (fun j => pieces.getD j 0 * order.getD j 0))).prod *
            pieces.getD k 0, order.getD k 0] t.data)
          (1 :: ((xi.drop (k + 1)).map List.length ++
            (List.range k).map (fun j => pieces.getD j 0 * order.getD j 0))).prod
          (xi.getD k [])).data.length =
          ((1 :: ((xi.drop (k + 1)).map List.length ++
            (List.range k).map (fun j => pieces.getD j 0 * order.getD j 0))) ++
            [(xi.getD k []).length]).prod := by
        have h1 := hEwf
        unfold Tensor.wf at h1
        rw [h1, hEsh, List.prod_append]
        simp
      rw [reshapeF_some _ _ hres2]
      dsimp only
      have hM1 : ((xi.drop (k + 1)).map List.length ++
          (List.range k).map (fun j => pieces.getD j 0 * order.getD j 0)).length + 1 =
          ndim := by
        simpa using hlenA
      have hsh2 : ((Tensor.mk ((1 :: ((xi.drop (k + 1)).map List.length ++
            (List.range k).map (fun j => pieces.getD j 0 * order.getD j 0))) ++
            [(xi.getD k []).length])
          (S.ppEval (breaks.getD k [])
            (Tensor.mk [(1 :: ((xi.drop (k + 1)).map List.length ++
                (List.range k).map (fun j => pieces.getD j 0 * order.getD j 0))).prod *
              pieces.getD k 0, order.getD k 0] t.data)
            (1 :: ((xi.drop (k + 1)).map List.length ++
              (List.range k).map (fun j => pieces.getD j 0 * order.getD j 0))).prod
            (xi.getD k [])).data).transposeF (rotAxes ndim)).shape =
          1 :: (xi.getD k []).length :: ((xi.drop (k + 1)).map List.length ++
            (List.range k).map (fun j => pieces.getD j 0 * order.getD j 0)) := by
        rw [← hM1]
        exact transposeF_rot_shape _ 1 (xi.getD k []).length _ rfl
      have hdropk : (xi.drop k).map List.length =
          (xi.getD k []).length :: (xi.drop (k + 1)).map List.length := by
        rw [List.drop_eq_getElem_cons hkxi, List.map_cons,
          List.getD_eq_getElem _ _ hkxi]
      obtain ⟨t', heq, hwf', hsh'⟩ :=
        ih (Nat.le_of_succ_le hk)
          ((Tensor.mk ((1 :: ((xi.drop (k + 1)).map List.length ++
              (List.range k).map (fun j => pieces.getD j 0 * order.getD j 0))) ++
              [(xi.getD k []).length])
            (S.ppEval (breaks.getD k [])
              (Tensor.mk [(1 :: ((xi.drop (k + 1)).map List.length ++
                  (List.range k).map (fun j => pieces.getD j 0 * order.getD j 0))).prod *
                pieces.getD k 0, order.getD k 0] t.data)
              (1 :: ((xi.drop (k + 1)).map List.length ++
                (List.range k).map (fun j => pieces.getD j 0 * order.getD j 0))).prod
              (xi.getD k [])).data).transposeF (rotAxes ndim))
          (transposeF_wf _ _)
          (by rw [hsh2, hdropk]; rfl)
      exact ⟨t', heq, hwf', hsh'⟩

theorem pieces_getD (xs : List (List ℚ)) (t : Tensor ℚ) (j : ℕ) (hj : j < xs.length) :
    (NdGridSplinePPForm.pieces ⟨xs, t⟩).getD j 0 = (xs.getD j []).length - 1 := by
  unfold NdGridSplinePPForm.pieces
  rw [List.getD_eq_getElem _ _ (by simpa using hj), List.getElem_map,
    List.getD_eq_getElem _ _ hj]

theorem order_getD (xs : List (List ℚ)) (t : Tensor ℚ) (V : List ℕ) (j : ℕ)
    (hsh : t.shape = 1 :: V) (hVlen : V.length = xs.length) (hj : j < xs.length) :
    (NdGridSplinePPForm.order ⟨xs, t⟩).getD j 0 =
      V.getD j 0 / ((xs.getD j []).length - 1) := by
  unfold NdGridSplinePPForm.order
  have hdrop : (NdGridSplinePPForm.coeffs ⟨xs, t⟩).shape.drop 1 = V := by
    show t.shape.drop 1 = V
    rw [hsh]
    rfl
  rw [hdrop]
  have hjz : j < (List.zipWith (fun s p => s / p) V
      (NdGridSplinePPForm.pieces ⟨xs, t⟩)).length := by
    simp [NdGridSplinePPForm.pieces, hVlen, hj]
  rw [List.getD_eq_getElem _ _ hjz, List.getElem_zipWith,
    ← List.getD_eq_getElem V 0 (by omega : j < V.length),
    ← List.getD_eq_getElem (NdGridSplinePPForm.pieces ⟨xs, t⟩) 0
      (by simpa [NdGridSplinePPForm.pieces] using hj)]
  congr 1
  exact pieces_getD xs t j hj

theorem evaluate_ok (S : Solver1D) (xs : List (List ℚ)) (t : Tensor ℚ) (V : List ℕ)
    (xi : List (List ℚ))
    (hwf : t.wf) (hsh : t.shape = 1 :: V) (hVlen : V.length = xs.length)
    (hdiv : ∀ j, j < xs.length → ∃ o, V.getD j 0 = ((xs.getD j []).length - 1) * o)
    (h2 : ∀ x ∈ xs, 2 ≤ x.length)
    (hxilen : xi.length = xs.length) :
    ∃ t', NdGridSplinePPForm.evaluate S ⟨xs, t⟩ xi = some t' ∧
      t'.wf ∧ t'.shape = xi.map List.length := by
  have hpo : ∀ j, j < xs.length →
      (NdGridSplinePPForm.pieces ⟨xs, t⟩).getD j 0 *
        (NdGridSplinePPForm.order ⟨xs, t⟩).getD j 0 = V.getD j 0 := by
    intro j hj
    obtain ⟨o, ho⟩ := hdiv j hj
    have hn2 : 2 ≤ (xs.getD j []).length := by
      rw [List.getD_eq_getElem _ _ hj]
      exact h2 _ (List.getElem_mem hj)
    have hnpos : 0 < (xs.getD j []).length - 1 := by omega
    rw [pieces_getD xs t j hj, order_getD xs t V j hsh hVlen hj, ho,
      Nat.mul_div_cancel_left o hnpos]
  have hinit : t.shape = 1 :: ((xi.drop xs.length).map List.length ++
      (List.range xs.length).map
        (fun j => (NdGridSplinePPForm.pieces ⟨xs, t⟩).getD j 0 *
          (NdGridSplinePPForm.order ⟨xs, t⟩).getD j 0)) := by
    have hdropnil : xi.drop xs.length = [] := by
      rw [← hxilen]
      exact List.drop_length xi
    have hrange : (List.range xs.length).map
        (fun j => (NdGridSplinePPForm.pieces ⟨xs, t⟩).getD j 0 *
          (NdGridSplinePPForm.order ⟨xs, t⟩).getD j 0) = V := by
      apply List.ext_getElem (by simp [hVlen])
      intro i h1 h2'
      have hi : i < xs.length := by simpa using h1
      simp only [List.getElem_map, List.getElem_range]
      rw [hpo i hi, List.getD_eq_getElem V 0 h2']
    rw [hdropnil, hrange, hsh]
    rfl
  obtain ⟨t1, heq, hwf1, hsh1⟩ :=
    evalLoop_ok S xs (NdGridSplinePPForm.pieces ⟨xs, t⟩)
      (NdGridSplinePPForm.order ⟨xs, t⟩) xi xs.length hxilen xs.length
      (Nat.le_refl _) t hwf hinit
  simp only [NdGridSplinePPForm.evaluate]
  have hndim : NdGridSplinePPForm.ndim ⟨xs, t⟩ = xs.length := rfl
  rw [hndim, heq]
  dsimp only
  have hres : t1.data.length = (xi.map List.length).prod := by
    have := hwf1
    unfold Tensor.wf at this
    rw [this, hsh1]
    simp
  rw [reshapeF_some t1 _ hres]
  exact ⟨⟨xi.map List.length, t1.data⟩, rfl, by simpa [Tensor.wf] using hres, rfl⟩

/-! ## End-to-end construction and evaluation -/

theorem resolveWeights_falsy {α : Type} (n : ℕ) (w : Option (PyObj α))
    (h : falsyWeights w = true) :
    resolveWeights n w = .ok (List.replicate n none) := by
  unfold resolveWeights
  rw [h]
  rfl

theorem prep_ok_lengths {α : Type} (d : PyObj α) (name : String) (vs : List (List α))
    (h : ndgrid_prepare_data_sites d name = .ok vs) : ∀ v ∈ vs, 2 ≤ v.length := by
  match d with
  | .nonSeq b => simp [ndgrid_prepare_data_sites] at h
  | .seq l => exact (prep_ok_inv name l vs h).2

theorem replicate_none_zip_any (n : ℕ) (xs : List (List ℚ)) :
    (((List.replicate n (none : Option (List ℚ))).zip xs).any fun p =>
      match p.1 with
      | none => false
      | some w => w.length ≠ p.2.length) = false := by
  rw [List.any_eq_false]
  intro p hp
  have h1 : p.1 ∈ List.replicate n (none : Option (List ℚ)) := (List.of_mem_zip hp).1
  have h2 : p.1 = none := List.eq_of_mem_replicate h1
  rw [h2]
  simp

theorem ndFit_ok (S : Solver1D) (xdata : PyObj ℚ) (ydata : Tensor ℚ)
    (weights : Option (PyObj ℚ)) (smooth : SmoothArg)
    (xs : List (List ℚ)) (ws : List (Option (List ℚ))) (sm : List (Option ℚ))
    (hprep : prepare_data xdata ydata weights smooth = .ok (xs, ydata, ws, sm))
    (hwf : ydata.wf) :
    ∃ (t' : Tensor ℚ) (V : List ℕ),
      ndFit S xdata ydata weights smooth =
        .ok ⟨xs, ydata, ws, xs.length, ⟨xs, t'⟩, smoothRevList S xs ws sm xs.length⟩ ∧
      t'.wf ∧ t'.shape = 1 :: V ∧ V.length = xs.length ∧
      (∀ j, j < xs.length → ∃ o, V.getD j 0 = ((xs.getD j []).length - 1) * o) := by
  obtain ⟨hx, -, hsh, hwslen, hsmeq, hsmlen⟩ :=
    prepare_data_inv xdata ydata weights smooth xs ydata ws sm hprep
  obtain ⟨t', V, hmk, hwf', hsh', hVlen, hVdiv⟩ := makeSpline_ok S xs ydata ws sm hwf hsh
  refine ⟨t', V, ?_, hwf', hsh', hVlen, hVdiv⟩
  unfold ndFit
  rw [hprep]
  dsimp only
  rw [hmk]

theorem ndCall_ok (S : Solver1D) (o : NdGridCubicSmoothingSpline)
    (xi : List (List ℚ)) (t' : Tensor ℚ)
    (hxi2 : ∀ q ∈ xi, 2 ≤ q.length) (hlen : xi.length = o.ndim)
    (heval : o.spline.evaluate S xi = some t') :
    ndCall S o (.seq (xi.map .vec)) = .ok t' := by
  unfold ndCall
  rw [prep_ok_of_vecs "xi" xi hxi2]
  dsimp only
  rw [if_neg (by omega), heval]

/-! ## Single-axis data-level facts (for the 1-D round-trip) -/

theorem makeSplineLoop_one (S : Solver1D) (x : List ℚ) (wopt : Option (List ℚ))
    (s : Option ℚ) (t : Tensor ℚ) (hsh : t.shape = [1, x.length]) (hwf : t.wf) :
    makeSplineLoop S [x] [wopt] [s] 1 1 t.shape t [] =
      some (⟨[1, (S.fit x ⟨[1, x.length], t.data⟩ wopt s).pieces *
          (S.fit x ⟨[1, x.length], t.data⟩ wopt s).order],
        (S.fit x ⟨[1, x.length], t.data⟩ wopt s).coeffs.data⟩,
        [(S.fit x ⟨[1, x.length], t.data⟩ wopt s).smooth]) := by
  have hlen : t.data.length = x.length := by
    rw [hwf, hsh]
    simp
  simp only [makeSplineLoop]
  rw [hsh]
  have hdl : ([1, x.length] : List ℕ).dropLast = [1] := rfl
  have hgl : ([1, x.length] : List ℕ).getLastD 0 = x.length := rfl
  rw [hdl, hgl]
  have hp1 : ([1] : List ℕ).prod = 1 := rfl
  rw [hp1]
  rw [reshapeF_some t [1, x.length] (by rw [hlen]; simp)]
  dsimp only
  have hx0 : ([x] : List (List ℚ)).getD 0 [] = x := rfl
  have hw0 : ([wopt] : List (Option (List ℚ))).getD 0 none = wopt := rfl
  have hs0 : ([s] : List (Option ℚ)).getD 0 none = s := rfl
  rw [hx0, hw0, hs0]
  have hFc := S.fit_coeffs_shape x ⟨[1, x.length], t.data⟩ wopt s 1 rfl
  have hFwf := S.fit_coeffs_wf x ⟨[1, x.length], t.data⟩ wopt s
  have hres2 : (S.fit x ⟨[1, x.length], t.data⟩ wopt s).coeffs.data.length =
      ([1] ++ [(S.fit x ⟨[1, x.length], t.data⟩ wopt s).pieces *
        (S.fit x ⟨[1, x.length], t.data⟩ wopt s).order]).prod := by
    have h1 : (S.fit x ⟨[1, x.length], t.data⟩ wopt s).coeffs.data.length =
        (S.fit x ⟨[1, x.length], t.data⟩ wopt s).coeffs.shape.prod := hFwf
    rw [h1, hFc]
    simp
  rw [reshapeF_some _ _ hres2]
  dsimp only
  rw [if_neg (by omega)]
  rfl

theorem makeSpline_one (S : Solver1D) (x y : List ℚ) (wopt : Option (List ℚ))
    (s : Option ℚ) (hy : y.length = x.length) :
    makeSpline S [x] ⟨[x.length], y⟩ [wopt] [s] =
      some (⟨[x], ⟨[1, (S.fit x ⟨[1, x.length], y⟩ wopt s).pieces *
          (S.fit x ⟨[1, x.length], y⟩ wopt s).order],
        (S.fit x ⟨[1, x.length], y⟩ wopt s).coeffs.data⟩⟩,
        [(S.fit x ⟨[1, x.length], y⟩ wopt s).smooth]) := by
  simp only [makeSpline]
  rw [reshapeF_some (⟨[x.length], y⟩ : Tensor ℚ) (1 :: ([x.length] : List ℕ))
    (by simpa using hy)]
  dsimp only
  have hxl : ([x] : List (List ℚ)).length = 1 := rfl
  rw [hxl]
  have hloop := makeSplineLoop_one S x wopt s ⟨[1, x.length], y⟩ rfl
    (by simpa [Tensor.wf] using hy)
  have hsheq : (Tensor.mk ([1, x.length] : List ℕ) y).shape = [1, x.length] := rfl
  have hdata : (Tensor.mk ([1, x.length] : List ℕ) y).data = y := rfl
  rw [hsheq, hdata] at hloop
  rw [hloop]

theorem evaluate_one (S : Solver1D) (x : List ℚ) (c : Tensor ℚ) (q : List ℚ)
    (p o : ℕ) (hsh : c.shape = [1, p * o]) (hwf : c.wf)
    (hp : p = x.length - 1) (hpp : 0 < p) :
    NdGridSplinePPForm.evaluate S ⟨[x], c⟩ [q] =
      some ⟨[q.length], (S.ppEval x ⟨[p, o], c.data⟩ 1 q).data⟩ := by
  have hclen : c.data.length = p * o := by
    rw [hwf, hsh]
    simp
  have hpieces : NdGridSplinePPForm.pieces ⟨[x], c⟩ = [x.length - 1] := rfl
  have horder : NdGridSplinePPForm.order ⟨[x], c⟩ = [(p * o) / (x.length - 1)] := by
    unfold NdGridSplinePPForm.order
    rw [hpieces]
    have : (NdGridSplinePPForm.coeffs ⟨[x], c⟩).shape.drop 1 = [p * o] := by
      show c.shape.drop 1 = [p * o]
      rw [hsh]
      rfl
    rw [this]
    rfl
  have hodiv : (p * o) / (x.length - 1) = o := by
    rw [← hp, Nat.mul_div_cancel_left o hpp]
  simp only [NdGridSplinePPForm.evaluate]
  have hndim : NdGridSplinePPForm.ndim ⟨[x], c⟩ = 1 := rfl
  rw [hndim, hpieces, horder, hodiv]
  simp only [evalLoop]
  rw [hsh]
  have htk : (([1, p * o] : List ℕ).take 1) = [1] := rfl
  rw [htk]
  have hp1 : ([1] : List ℕ).prod = 1 := rfl
  rw [hp1]
  have hg0 : ([x.length - 1] : List ℕ).getD 0 0 = x.length - 1 := rfl
  have hg0' : ([o] : List ℕ).getD 0 0 = o := rfl
  rw [hg0, hg0', ← hp]
  rw [reshapeF_some c [1 * p, o] (by rw [hclen]; simp)]
  dsimp only
  have hx0 : ([x] : List (List ℚ)).getD 0 [] = x := rfl
  have hq0 : ([q] : List (List ℚ)).getD 0 [] = q := rfl
  rw [hx0, hq0]
  have h1p : (1 : ℕ) * p = p := Nat.one_mul p
  rw [h1p]
  have hEsh := S.ppEval_shape x ⟨[p, o], c.data⟩ 1 q
  have hEwf := S.ppEval_wf x ⟨[p, o], c.data⟩ 1 q
  have hElen : (S.ppEval x ⟨[p, o], c.data⟩ 1 q).data.length = q.length := by
    have h1 : (S.ppEval x ⟨[p, o], c.data⟩ 1 q).data.length =
        (S.ppEval x ⟨[p, o], c.data⟩ 1 q).shape.prod := hEwf
    rw [h1, hEsh]
    simp
  rw [reshapeF_some (S.ppEval x ⟨[p, o], c.data⟩ 1 q) ([1] ++ [q.length])
    (by rw [hElen]; simp)]
  dsimp only
  have happ : ([1] ++ [q.length] : List ℕ) = [1, q.length] := rfl
  rw [happ]
  have hrot : rotAxes 1 = [0, 1] := rfl
  rw [hrot]
  rw [transposeF_two 1 q.length (S.ppEval x ⟨[p, o], c.data⟩ 1 q).data
    (by rw [hElen]; omega)]
  rw [reshapeF_some (⟨[1, q.length], (S.ppEval x ⟨[p, o], c.data⟩ 1 q).data⟩ : Tensor ℚ)
    ([q].map List.length) (by rw [hElen]; simp)]
  rfl

theorem pieces_order_mul (xs : List (List ℚ)) (t : Tensor ℚ) (V : List ℕ)
    (hsh : t.shape = 1 :: V) (hVlen : V.length = xs.length)
    (hdiv : ∀ j, j < xs.length → ∃ o, V.getD j 0 = ((xs.getD j []).length - 1) * o)
    (h2 : ∀ x ∈ xs, 2 ≤ x.length) (j : ℕ) (hj : j < xs.length) :
    (NdGridSplinePPForm.pieces ⟨xs, t⟩).getD j 0 *
      (NdGridSplinePPForm.order ⟨xs, t⟩).getD j 0 = V.getD j 0 := by
  obtain ⟨o, ho⟩ := hdiv j hj
  have hn2 : 2 ≤ (xs.getD j []).length := by
    rw [List.getD_eq_getElem _ _ hj]
    exact h2 _ (List.getElem_mem hj)
  have hnpos : 0 < (xs.getD j []).length - 1 := by omega
  rw [pieces_getD xs t j hj, order_getD xs t V j hsh hVlen hj, ho,
    Nat.mul_div_cancel_left o hnpos]

theorem smoothRevList_length (S : Solver1D) (xs : List (List ℚ))
    (ws : List (Option (List ℚ))) (sm : List (Option ℚ)) (n : ℕ) :
    (smoothRevList S xs ws sm n).length = n := by
  simp [smoothRevList]

theorem smoothRevList_getD (S : Solver1D) (xs : List (List ℚ))
    (ws : List (Option (List ℚ))) (sm : List (Option ℚ)) (n k : ℕ) (hk : k < n) :
    (smoothRevList S xs ws sm n).getD k 0 =
      S.resolveSmooth (xs.getD (n - 1 - k) []) (ws.getD (n - 1 - k) none)
        (sm.getD (n - 1 - k) none) := by
  unfold smoothRevList
  rw [List.getD_eq_getElem _ _ (by simpa using hk)]
  rw [List.getElem_reverse]
  simp only [List.getElem_map, List.getElem_range, List.length_map, List.length_range]

theorem mapM_prepElem_err {α : Type} (name : String) :
    ∀ (l : List (NdArrayLike α)),
      (∃ e ∈ l, ∀ v : List α, ¬(e = .vec v ∧ 2 ≤ v.length)) →
      ∃ msg, l.mapM (prepElem name) = .error (.valueError msg)
  | [], h => by simp at h
  | e :: l, h => by
      rw [List.mapM_cons]
      match e with
      | .atom v =>
          refine ⟨name ++ " must contain at least 2 data points.", ?_⟩
          simp [prepElem, Bind.bind, Except.bind]
      | .mat m =>
          refine ⟨"All " ++ name ++ " elements must be a vector.", ?_⟩
          simp [prepElem, Bind.bind, Except.bind]
      | .vec v =>
          by_cases hv : v.length < 2
          · refine ⟨name ++ " must contain at least 2 data points.", ?_⟩
            simp [prepElem, hv, Bind.bind, Except.bind]
          · have h' : ∃ e' ∈ l, ∀ v' : List α, ¬(e' = .vec v' ∧ 2 ≤ v'.length) := by
              obtain ⟨e', he', hbad⟩ := h
              rcases List.mem_cons.mp he' with rfl | hmem
              · exact absurd ⟨rfl, Nat.not_lt.mp hv⟩ (hbad v)
              · exact ⟨e', hmem, hbad⟩
            obtain ⟨msg, hmsg⟩ := mapM_prepElem_err name l h'
            refine ⟨msg, ?_⟩
            rw [prepElem_vec_ok name v (Nat.not_lt.mp hv), hmsg]
            rfl

/-! ## Claim theorems -/

/-- Claim C7: the axis validator raises a `TypeError`-kind for every input
that is not a sequence, raises a `ValueError`-kind for every sequence that
contains an element that is not a 1-D vector with at least 2 entries, and on
success returns exactly the vectors of the input sequence (the input itself,
being a value of a pure function, is never modified). -/
theorem claim_C7 {α : Type} (name : String) :
    (∀ b : Bool, ∃ msg, ndgrid_prepare_data_sites (α := α) (.nonSeq b) name =
        .error (.typeError msg)) ∧
    (∀ l : List (NdArrayLike α),
      (∃ e ∈ l, ∀ v : List α, ¬(e = .vec v ∧ 2 ≤ v.length)) →
      ∃ msg, ndgrid_prepare_data_sites (.seq l) name = .error (.valueError msg)) ∧
    (∀ vs : List (List α), (∀ v ∈ vs, 2 ≤ v.length) →
      ndgrid_prepare_data_sites (.seq (vs.map .vec)) name = .ok vs) ∧
    (∀ (l : List (NdArrayLike α)) (vs : List (List α)),
      ndgrid_prepare_data_sites (.seq l) name = .ok vs →
      l = vs.map .vec ∧ ∀ v ∈ vs, 2 ≤ v.length) := by
  refine ⟨?_, ?_, ?_, ?_⟩
  · intro b
    exact ⟨name ++ " must be a sequence of the vectors.", rfl⟩
  · intro l h
    exact mapM_prepElem_err name l h
  · intro vs h2
    exact prep_ok_of_vecs name vs h2
  · intro l vs h
    exact prep_ok_inv name l vs h

/-- Claim C7 witness: concrete instances of the three behaviours. -/
theorem claim_C7_witness :
    (∃ msg, ndgrid_prepare_data_sites (α := ℚ) (.nonSeq true) "xdata" =
        .error (.typeError msg)) ∧
    (∃ msg, ndgrid_prepare_data_sites (α := ℚ) (.seq [.mat [[1, 2]]]) "xdata" =
        .error (.valueError msg)) ∧
    ndgrid_prepare_data_sites (α := ℚ) (.seq [.vec [0, 1]]) "xdata" =
      .ok [[0, 1]] := by
  refine ⟨(claim_C7 "xdata").1 true, ?_, ?_⟩
  · refine (claim_C7 "xdata").2.1 [.mat [[1, 2]]] ⟨.mat [[1, 2]], by simp, ?_⟩
    intro v hv
    exact absurd hv.1 (by simp)
  · exact (claim_C7 "xdata").2.2.1 [[0, 1]] (by decide)

/-- Claim C3 counterexample: the validator accepts an axis vector containing a
NaN entry (non-finite data is not rejected), contradicting the claim that
every non-finite axis vector raises an error. -/
theorem claim_C3_counterexample :
    ndgrid_prepare_data_sites
        (PyObj.seq [NdArrayLike.vec [FloatVal.nan, FloatVal.fin 1]]) "xdata" =
      .ok [[FloatVal.nan, FloatVal.fin 1]] ∧
    FloatVal.isFinite FloatVal.nan = false := ⟨rfl, rfl⟩

/-- Claim C3 (amended): validation checks only structure — being a sequence,
elements 1-D, at least 2 entries.  Any sequence of 1-D vectors with at least 2
entries passes and is returned as-is, whether or not its entries are finite;
finiteness is never examined. -/
theorem claim_C3_amended (vs : List (List FloatVal)) (name : String)
    (h2 : ∀ v ∈ vs, 2 ≤ v.length) :
    ndgrid_prepare_data_sites (.seq (vs.map .vec)) name = .ok vs :=
  prep_ok_of_vecs name vs h2

/-- Claim C3 witness: an infinite/NaN vector passing validation, via the
amended claim. -/
theorem claim_C3_witness :
    ndgrid_prepare_data_sites
        (PyObj.seq [NdArrayLike.vec [FloatVal.inf, FloatVal.nan]]) "xdata" =
      .ok [[FloatVal.inf, FloatVal.nan]] :=
  claim_C3_amended [[FloatVal.inf, FloatVal.nan]] "xdata" (by decide)

/-- Claim C2 (code-bug evidence): constructing with the scalar smoothing
parameter 0 does not broadcast 0 to the axes; the falsy test `not smooth`
(`_sspndg.py` line 186) replaces it by `None` per axis, i.e. automatic
selection, contradicting the class docstring (lines 119-121), which documents
0 as the least-squares straight-line fit. -/
theorem claim_C2_scalar_zero :
    prepare_data (PyObj.seq [NdArrayLike.vec [0, 1], NdArrayLike.vec [0, 1, 2]])
        ⟨[2, 3], List.replicate 6 0⟩ none (SmoothArg.scalar 0) =
      .ok ([[0, 1], [0, 1, 2]], ⟨[2, 3], List.replicate 6 0⟩, [none, none],
        [none, none]) ∧
    ([none, none] : List (Option ℚ)) ≠ [some 0, some 0] := by
  exact ⟨rfl, by decide⟩

/-- Claim C6: whenever `ydata`'s dimension count differs from the number of
axes, or some extent differs from the corresponding axis length, construction
fails with a `ValueError`-kind; the outcome is the same for every 1-D solver,
so no fitting work is attempted. -/
theorem claim_C6 (S : Solver1D) (xdata : PyObj ℚ) (ydata : Tensor ℚ)
    (weights : Option (PyObj ℚ)) (smooth : SmoothArg) (xs : List (List ℚ))
    (hx : ndgrid_prepare_data_sites xdata "xdata" = .ok xs)
    (hbad : ydata.shape.length ≠ xs.length ∨
      ∃ p ∈ ydata.shape.zip (xs.map List.length), p.1 ≠ p.2) :
    ∃ msg, ndFit S xdata ydata weights smooth = .error (.valueError msg) ∧
      ∀ S' : Solver1D, ndFit S' xdata ydata weights smooth =
        ndFit S xdata ydata weights smooth := by
  have herr : ∃ msg, prepare_data xdata ydata weights smooth =
      .error (.valueError msg) := by
    unfold prepare_data
    rw [hx]
    dsimp only
    by_cases h1 : ydata.shape.length ≠ xs.length
    · rw [if_pos h1]
      exact ⟨_, rfl⟩
    · have h2 := hbad.resolve_left h1
      have hany : ((ydata.shape.zip (xs.map List.length)).any fun p =>
          p.1 ≠ p.2) = true := by
        rw [List.any_eq_true]
        obtain ⟨pp, hpp, hne⟩ := h2
        exact ⟨pp, hpp, by simpa using hne⟩
      rw [if_neg h1, if_pos hany]
      exact ⟨_, rfl⟩
  obtain ⟨msg, hmsg⟩ := herr
  refine ⟨msg, ?_, ?_⟩
  · unfold ndFit
    rw [hmsg]
  · intro S'
    unfold ndFit
    rw [hmsg]

/-- Claim C6 witness: the spec scenario — one axis `[0,1,2]` with a 3×3
`ydata` — fails with a `ValueError`-kind, identically for every solver. -/
theorem claim_C6_witness :
    ∃ msg, ndFit defaultSolver (PyObj.seq [NdArrayLike.vec [0, 1, 2]])
        ⟨[3, 3], List.replicate 9 0⟩ none SmoothArg.noneArg =
        .error (.valueError msg) ∧
      ∀ S' : Solver1D, ndFit S' (PyObj.seq [NdArrayLike.vec [0, 1, 2]])
          ⟨[3, 3], List.replicate 9 0⟩ none SmoothArg.noneArg =
        ndFit defaultSolver (PyObj.seq [NdArrayLike.vec [0, 1, 2]])
          ⟨[3, 3], List.replicate 9 0⟩ none SmoothArg.noneArg :=
  claim_C6 defaultSolver (PyObj.seq [NdArrayLike.vec [0, 1, 2]])
    ⟨[3, 3], List.replicate 9 0⟩ none SmoothArg.noneArg [[0, 1, 2]]
    (by rfl) (Or.inl (by decide))

/-- Claim C10: a falsy `weights` argument (Python `None`, an empty sequence,
or any other falsy value) is treated exactly as omitted weights: construction
behaves identically, and for valid data it succeeds with uniform (`None`)
weighting on every axis — the length-0 sequence never reaches the
length-mismatch check. -/
theorem claim_C10 (S : Solver1D) (xdata : PyObj ℚ) (ydata : Tensor ℚ)
    (smooth : SmoothArg) (xs : List (List ℚ))
    (hx : ndgrid_prepare_data_sites xdata "xdata" = .ok xs)
    (hsh : ydata.shape = xs.map List.length) (hwf : ydata.wf)
    (hsm : (resolveSmoothArg xs.length smooth).length = xs.length) :
    (∀ (S' : Solver1D) (xd : PyObj ℚ) (yd : Tensor ℚ) (smo : SmoothArg)
        (w : Option (PyObj ℚ)), falsyWeights w = true →
      ndFit S' xd yd w smo = ndFit S' xd yd none smo) ∧
    ∃ o, ndFit S xdata ydata (some (.seq [])) smooth = .ok o ∧
      o.weights = List.replicate xs.length none := by
  constructor
  · intro S' xd yd smo w hfal
    have hpd : prepare_data xd yd w smo = prepare_data xd yd none smo := by
      unfold prepare_data
      cases hE : ndgrid_prepare_data_sites xd "xdata" with
      | error e => rfl
      | ok xs' =>
          dsimp only
          rw [resolveWeights_falsy xs'.length w hfal,
            resolveWeights_falsy xs'.length none rfl]
    unfold ndFit
    rw [hpd]
  · have hw : resolveWeights xs.length (some (PyObj.seq ([] : List (NdArrayLike ℚ)))) =
        .ok (List.replicate xs.length none) :=
      resolveWeights_falsy xs.length _ rfl
    have hprep := prepare_data_ok xdata ydata (some (.seq [])) smooth xs
      (List.replicate xs.length none) hx hsh hw (by simp)
      (replicate_none_zip_any xs.length xs) hsm
    obtain ⟨t', V, hfit, _, _, _, _⟩ :=
      ndFit_ok S xdata ydata (some (.seq [])) smooth xs
        (List.replicate xs.length none) (resolveSmoothArg xs.length smooth)
        hprep hwf
    exact ⟨_, hfit, rfl⟩

/-- Claim C10 witness: an empty weights sequence on a valid 2-axis input. -/
theorem claim_C10_witness :
    (∀ (S' : Solver1D) (xd : PyObj ℚ) (yd : Tensor ℚ) (smo : SmoothArg)
        (w : Option (PyObj ℚ)), falsyWeights w = true →
      ndFit S' xd yd w smo = ndFit S' xd yd none smo) ∧
    ∃ o, ndFit defaultSolver (PyObj.seq [NdArrayLike.vec [0, 1], NdArrayLike.vec [0, 1, 2]])
        ⟨[2, 3], List.replicate 6 0⟩ (some (.seq [])) SmoothArg.noneArg = .ok o ∧
      o.weights = List.replicate ([[0, 1], [0, 1, 2]] : List (List ℚ)).length none :=
  claim_C10 defaultSolver (PyObj.seq [NdArrayLike.vec [0, 1], NdArrayLike.vec [0, 1, 2]])
    ⟨[2, 3], List.replicate 6 0⟩ SmoothArg.noneArg [[0, 1], [0, 1, 2]]
    (by rfl) (by rfl) (by decide) (by rfl)

/-- Claim C5: for every form produced by fitting valid inputs, `ndim` equals
the number of axes, `pieces[k]` is `len(xdata[k]) - 1`, and the coefficient
tensor's extent along the dimension paired with axis `k` (dimension `k + 1`,
after the synthetic leading dimension) equals `pieces[k] * order[k]`. -/
theorem claim_C5 (S : Solver1D) (xdata : PyObj ℚ) (ydata : Tensor ℚ)
    (weights : Option (PyObj ℚ)) (smooth : SmoothArg)
    (xs : List (List ℚ)) (ws : List (Option (List ℚ))) (sm : List (Option ℚ))
    (hprep : prepare_data xdata ydata weights smooth = .ok (xs, ydata, ws, sm))
    (hwf : ydata.wf) :
    ∃ o, ndFit S xdata ydata weights smooth = .ok o ∧
      o.spline.ndim = xs.length ∧
      ∀ k, k < xs.length →
        o.spline.pieces.getD k 0 = (xs.getD k []).length - 1 ∧
        o.spline.coeffs.shape.getD (k + 1) 0 =
          o.spline.pieces.getD k 0 * o.spline.order.getD k 0 := by
  obtain ⟨t', V, hfit, hwf', hsh', hVlen, hVdiv⟩ :=
    ndFit_ok S xdata ydata weights smooth xs ws sm hprep hwf
  have hx := (prepare_data_inv xdata ydata weights smooth xs ydata ws sm hprep).1
  have h2 := prep_ok_lengths xdata "xdata" xs hx
  refine ⟨_, hfit, rfl, ?_⟩
  intro k hk
  refine ⟨pieces_getD xs t' k hk, ?_⟩
  show t'.shape.getD (k + 1) 0 =
    (NdGridSplinePPForm.pieces ⟨xs, t'⟩).getD k 0 *
      (NdGridSplinePPForm.order ⟨xs, t'⟩).getD k 0
  rw [hsh', List.getD_cons_succ, pieces_order_mul xs t' V hsh' hVlen hVdiv h2 k hk]

/-- Claim C5 witness: the 2-axis instance with axis lengths 2 and 3. -/
theorem claim_C5_witness :
    ∃ o, ndFit defaultSolver
        (PyObj.seq [NdArrayLike.vec [0, 1], NdArrayLike.vec [0, 1, 2]])
        ⟨[2, 3], List.replicate 6 0⟩ none SmoothArg.noneArg = .ok o ∧
      o.spline.ndim = ([[0, 1], [0, 1, 2]] : List (List ℚ)).length ∧
      ∀ k, k < ([[0, 1], [0, 1, 2]] : List (List ℚ)).length →
        o.spline.pieces.getD k 0 =
          (([[0, 1], [0, 1, 2]] : List (List ℚ)).getD k []).length - 1 ∧
        o.spline.coeffs.shape.getD (k + 1) 0 =
          o.spline.pieces.getD k 0 * o.spline.order.getD k 0 :=
  claim_C5 defaultSolver (PyObj.seq [NdArrayLike.vec [0, 1], NdArrayLike.vec [0, 1, 2]])
    ⟨[2, 3], List.replicate 6 0⟩ none SmoothArg.noneArg
    [[0, 1], [0, 1, 2]] [none, none] [none, none] (by rfl) (by decide)

/-- Claim C1 counterexample: requesting per-axis smoothing parameters (0, 1)
yields the resolved tuple (1, 0) — the loop of `_make_spline` visits axes in
reverse order and appends without re-reversing, so entry 0 of the tuple is the
parameter of the last axis, not of axis 0 as the claim states. -/
theorem claim_C1_counterexample :
    (ndFit defaultSolver (PyObj.seq [NdArrayLike.vec [0, 1], NdArrayLike.vec [0, 1, 2]])
        ⟨[2, 3], List.replicate 6 0⟩ none (SmoothArg.sseq [some 0, some 1])).map
      (fun o => o.smooth) = .ok [1, 0] ∧
    ([1, 0] : List ℚ) ≠ [0, 1] := by
  refine ⟨rfl, by decide⟩

/-- Claim C1 (amended): fitting produces a resolved smoothing-parameter list
of length `ndim` in reverse axis order: entry `k` is the parameter the 1-D
solver resolved for axis `ndim - 1 - k` (from that axis's sites, weights and
requested parameter). -/
theorem claim_C1_amended (S : Solver1D) (xdata : PyObj ℚ) (ydata : Tensor ℚ)
    (weights : Option (PyObj ℚ)) (smooth : SmoothArg)
    (xs : List (List ℚ)) (ws : List (Option (List ℚ))) (sm : List (Option ℚ))
    (hprep : prepare_data xdata ydata weights smooth = .ok (xs, ydata, ws, sm))
    (hwf : ydata.wf) :
    ∃ o, ndFit S xdata ydata weights smooth = .ok o ∧
      o.smooth.length = xs.length ∧
      ∀ k, k < xs.length →
        o.smooth.getD k 0 =
          S.resolveSmooth (xs.getD (xs.length - 1 - k) [])
            (ws.getD (xs.length - 1 - k) none)
            (sm.getD (xs.length - 1 - k) none) := by
  obtain ⟨t', V, hfit, _, _, _, _⟩ :=
    ndFit_ok S xdata ydata weights smooth xs ws sm hprep hwf
  refine ⟨_, hfit, ?_, ?_⟩
  · exact smoothRevList_length S xs ws sm xs.length
  · intro k hk
    exact smoothRevList_getD S xs ws sm xs.length k hk

/-- Claim C1 witness: the amended claim at the concrete 2-axis instance with
requested parameters (0, 1): entry 0 is axis 1's parameter. -/
theorem claim_C1_witness :
    ∃ o, ndFit defaultSolver
        (PyObj.seq [NdArrayLike.vec [0, 1], NdArrayLike.vec [0, 1, 2]])
        ⟨[2, 3], List.replicate 6 0⟩ none (SmoothArg.sseq [some 0, some 1]) = .ok o ∧
      o.smooth.length = ([[0, 1], [0, 1, 2]] : List (List ℚ)).length ∧
      ∀ k, k < ([[0, 1], [0, 1, 2]] : List (List ℚ)).length →
        o.smooth.getD k 0 =
          defaultSolver.resolveSmooth
            (([[0, 1], [0, 1, 2]] : List (List ℚ)).getD
              (([[0, 1], [0, 1, 2]] : List (List ℚ)).length - 1 - k) [])
            (([none, none] : List (Option (List ℚ))).getD
              (([[0, 1], [0, 1, 2]] : List (List ℚ)).length - 1 - k) none)
            (([some 0, some 1] : List (Option ℚ)).getD
              (([[0, 1], [0, 1, 2]] : List (List ℚ)).length - 1 - k) none) :=
  claim_C1_amended defaultSolver
    (PyObj.seq [NdArrayLike.vec [0, 1], NdArrayLike.vec [0, 1, 2]])
    ⟨[2, 3], List.replicate 6 0⟩ none (SmoothArg.sseq [some 0, some 1])
    [[0, 1], [0, 1, 2]] [none, none] [some 0, some 1] (by rfl) (by decide)

/-- Claim C8: evaluation is pure.  In the embedding the `evaluate` method is a
function of the form and the query only; the state-passing rendering returns
the receiver unchanged, so two calls with identical arguments yield identical
results and none of `breaks`, `coeffs`, `pieces`, `order` changes. -/
theorem claim_C8 (S : Solver1D) (f : NdGridSplinePPForm) (xi : List (List ℚ)) :
    f.evaluateSt S xi = f.evaluateSt S xi ∧
    (f.evaluateSt S xi).1 = f.evaluate S xi ∧
    (f.evaluateSt S xi).2 = f ∧
    (f.evaluateSt S xi).2.breaks = f.breaks ∧
    (f.evaluateSt S xi).2.coeffs = f.coeffs ∧
    (f.evaluateSt S xi).2.pieces = f.pieces ∧
    (f.evaluateSt S xi).2.order = f.order :=
  ⟨rfl, rfl, rfl, rfl, rfl, rfl, rfl⟩

/-- Claim C4: for every form fitted from valid inputs and every valid query
grid of `ndim` vectors, evaluation succeeds and returns a tensor whose shape
is exactly the list of query-vector lengths, in axis order. -/
theorem claim_C4 (S : Solver1D) (xdata : PyObj ℚ) (ydata : Tensor ℚ)
    (weights : Option (PyObj ℚ)) (smooth : SmoothArg)
    (xs : List (List ℚ)) (ws : List (Option (List ℚ))) (sm : List (Option ℚ))
    (hprep : prepare_data xdata ydata weights smooth = .ok (xs, ydata, ws, sm))
    (hwf : ydata.wf) (xi : List (List ℚ))
    (hxi2 : ∀ q ∈ xi, 2 ≤ q.length) (hxilen : xi.length = xs.length) :
    ∃ o t', ndFit S xdata ydata weights smooth = .ok o ∧
      ndCall S o (.seq (xi.map .vec)) = .ok t' ∧
      t'.shape = xi.map List.length := by
  obtain ⟨t', V, hfit, hwf', hsh', hVlen, hVdiv⟩ :=
    ndFit_ok S xdata ydata weights smooth xs ws sm hprep hwf
  have hx := (prepare_data_inv xdata ydata weights smooth xs ydata ws sm hprep).1
  have h2 := prep_ok_lengths xdata "xdata" xs hx
  obtain ⟨t2, heval, hwf2, hsh2⟩ :=
    evaluate_ok S xs t' V xi hwf' hsh' hVlen hVdiv h2 hxilen
  refine ⟨_, t2, hfit, ?_, hsh2⟩
  exact ndCall_ok S _ xi t2 hxi2 hxilen heval

/-- Claim C4 witness: fitting on axes of lengths 2 and 3 and evaluating at
query vectors of lengths 4 and 2 yields a tensor of shape (4, 2). -/
theorem claim_C4_witness :
    ∃ o t', ndFit defaultSolver
        (PyObj.seq [NdArrayLike.vec [0, 1], NdArrayLike.vec [0, 1, 2]])
        ⟨[2, 3], List.replicate 6 0⟩ none SmoothArg.noneArg = .ok o ∧
      ndCall defaultSolver o
        (.seq (([[0, 1, 2, 3], [0, 5]] : List (List ℚ)).map .vec)) = .ok t' ∧
      t'.shape = ([[0, 1, 2, 3], [0, 5]] : List (List ℚ)).map List.length :=
  claim_C4 defaultSolver
    (PyObj.seq [NdArrayLike.vec [0, 1], NdArrayLike.vec [0, 1, 2]])
    ⟨[2, 3], List.replicate 6 0⟩ none SmoothArg.noneArg
    [[0, 1], [0, 1, 2]] [none, none] [none, none] (by rfl) (by decide)
    [[0, 1, 2, 3], [0, 5]] (by decide) (by rfl)

/-- Claim C9: for a single axis, the ND grid engine — construction via
`_prepare_data` and `_make_spline`, then `__call__` — produces exactly the
values the standalone 1-D solver produces when fitted and evaluated on the
same sites, values, weights and smoothing parameter. -/
theorem claim_C9 (S : Solver1D) (x y : List ℚ) (w : Option (List ℚ))
    (s : Option ℚ) (q : List ℚ)
    (hx2 : 2 ≤ x.length) (hy : y.length = x.length)
    (hwlen : ∀ wv, w = some wv → wv.length = x.length) (hq2 : 2 ≤ q.length) :
    ∃ o t', ndFit S (.seq [.vec x]) ⟨[x.length], y⟩
        (w.map fun wv => PyObj.seq [NdArrayLike.vec wv]) (.sseq [s]) = .ok o ∧
      ndCall S o (.seq [.vec q]) = .ok t' ∧
      t'.shape = [q.length] ∧
      t'.data = (standalone1d S x y w s q).data := by
  have hxval : ndgrid_prepare_data_sites (PyObj.seq [NdArrayLike.vec x]) "xdata" =
      .ok [x] := by
    have := prep_ok_of_vecs "xdata" [x]
      (by intro v hv; rw [List.mem_singleton.mp hv]; exact hx2)
    simpa using this
  have hw : resolveWeights ([x] : List (List ℚ)).length
      (w.map fun wv => PyObj.seq [NdArrayLike.vec wv]) = .ok [w] := by
    match w with
    | none => rfl
    | some wv =>
        have hmap : (some wv).map (fun wv => PyObj.seq [NdArrayLike.vec wv]) =
            some (PyObj.seq [NdArrayLike.vec wv]) := rfl
        rw [hmap]
        unfold resolveWeights
        rw [if_neg (by simp [falsyWeights])]
        dsimp only
        have hval : ndgrid_prepare_data_sites (PyObj.seq [NdArrayLike.vec wv])
            "weights" = .ok [wv] := by
          have h2wv : 2 ≤ wv.length := by rw [hwlen wv rfl]; exact hx2
          have := prep_ok_of_vecs "weights" [wv]
            (by intro v hv; rw [List.mem_singleton.mp hv]; exact h2wv)
          simpa using this
        rw [hval]
        rfl
  have hwsz : ((([w] : List (Option (List ℚ))).zip [x]).any fun p =>
      match p.1 with
      | none => false
      | some wv => wv.length ≠ p.2.length) = false := by
    match w with
    | none => rfl
    | some wv => simp [hwlen wv rfl]
  have hprep := prepare_data_ok (.seq [.vec x]) ⟨[x.length], y⟩
    (w.map fun wv => PyObj.seq [NdArrayLike.vec wv]) (.sseq [s]) [x] [w]
    hxval rfl hw rfl hwsz rfl
  have hsm1 : resolveSmoothArg ([x] : List (List ℚ)).length (.sseq [s]) = [s] := rfl
  rw [hsm1] at hprep
  have hC : (⟨[1, (S.fit x ⟨[1, x.length], y⟩ w s).pieces *
      (S.fit x ⟨[1, x.length], y⟩ w s).order],
      (S.fit x ⟨[1, x.length], y⟩ w s).coeffs.data⟩ : Tensor ℚ).wf := by
    have hFc := S.fit_coeffs_shape x ⟨[1, x.length], y⟩ w s 1 rfl
    have hFwf := S.fit_coeffs_wf x ⟨[1, x.length], y⟩ w s
    show (S.fit x ⟨[1, x.length], y⟩ w s).coeffs.data.length = _
    have h1 : (S.fit x ⟨[1, x.length], y⟩ w s).coeffs.data.length =
        (S.fit x ⟨[1, x.length], y⟩ w s).coeffs.shape.prod := hFwf
    rw [h1, hFc]
  have hpp : 0 < (S.fit x ⟨[1, x.length], y⟩ w s).pieces := by
    rw [S.fit_pieces x ⟨[1, x.length], y⟩ w s]
    omega
  have heval := evaluate_one S x
    ⟨[1, (S.fit x ⟨[1, x.length], y⟩ w s).pieces *
      (S.fit x ⟨[1, x.length], y⟩ w s).order],
      (S.fit x ⟨[1, x.length], y⟩ w s).coeffs.data⟩ q
    (S.fit x ⟨[1, x.length], y⟩ w s).pieces
    (S.fit x ⟨[1, x.length], y⟩ w s).order rfl hC
    (S.fit_pieces x ⟨[1, x.length], y⟩ w s) hpp
  refine ⟨⟨[x], ⟨[x.length], y⟩, [w], ([x] : List (List ℚ)).length,
    ⟨[x], ⟨[1, (S.fit x ⟨[1, x.length], y⟩ w s).pieces *
      (S.fit x ⟨[1, x.length], y⟩ w s).order],
      (S.fit x ⟨[1, x.length], y⟩ w s).coeffs.data⟩⟩,
    [(S.fit x ⟨[1, x.length], y⟩ w s).smooth]⟩,
    ⟨[q.length], (S.ppEval x ⟨[(S.fit x ⟨[1, x.length], y⟩ w s).pieces,
      (S.fit x ⟨[1, x.length], y⟩ w s).order],
      (S.fit x ⟨[1, x.length], y⟩ w s).coeffs.data⟩ 1 q).data⟩, ?_, ?_, rfl, rfl⟩
  · unfold ndFit
    rw [hprep]
    dsimp only
    rw [makeSpline_one S x y w s hy]
  · have hcall := ndCall_ok S
      ⟨[x], ⟨[x.length], y⟩, [w], ([x] : List (List ℚ)).length,
        ⟨[x], ⟨[1, (S.fit x ⟨[1, x.length], y⟩ w s).pieces *
          (S.fit x ⟨[1, x.length], y⟩ w s).order],
          (S.fit x ⟨[1, x.length], y⟩ w s).coeffs.data⟩⟩,
        [(S.fit x ⟨[1, x.length], y⟩ w s).smooth]⟩
      [q] ⟨[q.length], (S.ppEval x ⟨[(S.fit x ⟨[1, x.length], y⟩ w s).pieces,
        (S.fit x ⟨[1, x.length], y⟩ w s).order],
        (S.fit x ⟨[1, x.length], y⟩ w s).coeffs.data⟩ 1 q).data⟩
      (by intro v hv; rw [List.mem_singleton.mp hv]; exact hq2) rfl heval
    simpa using hcall

/-- Claim C9 witness: the round-trip at sites `[0,1,2]`, values `[5,6,7]`,
no weights, automatic smoothing, query `[0,1]`. -/
theorem claim_C9_witness :
    ∃ o t', ndFit defaultSolver (.seq [.vec [0, 1, 2]])
        ⟨[([0, 1, 2] : List ℚ).length], [5, 6, 7]⟩
        ((none : Option (List ℚ)).map fun wv => PyObj.seq [NdArrayLike.vec wv])
        (.sseq [none]) = .ok o ∧
      ndCall defaultSolver o (.seq [.vec [0, 1]]) = .ok t' ∧
      t'.shape = [([0, 1] : List ℚ).length] ∧
      t'.data = (standalone1d defaultSolver [0, 1, 2] [5, 6, 7] none none [0, 1]).data :=
  claim_C9 defaultSolver [0, 1, 2] [5, 6, 7] none none [0, 1]
    (by decide) (by decide) (by intro wv h; cases h) (by decide)

end Csaps
